import Mathlib

/-!
Verification of the `ado_summarizer` backend (`src/main.py`), a FastAPI proxy
in front of the Azure DevOps REST API.

Python strings (`str`) are modelled as `List Char` (Unicode code points,
which is exactly what a Python `str` is); Python `bytes` are modelled as
`List Nat` with every element below 256.  Each helper mirrors the Python
primitive the source uses (`str.replace`, `str.split`, `str.strip`,
`base64.b64encode/b64decode`, UTF-8 `encode`/`decode`), and each endpoint of
`main.py` is embedded as a function over an explicit upstream environment
(the sequential awaited HTTP calls become fields of an environment record;
an upstream exception becomes an `Except` error value).
-/

/-- Model of a Python `str`: a list of Unicode code points. -/
abbrev PyStr := List Char

/-- Python truthiness-based `x or d` on an optional string: an absent or
empty string falls back to the default (`main.py` lines 112-117). -/
def pyOr (o : Option PyStr) (d : PyStr) : PyStr :=
  match o with
  | some s => if s = [] then d else s
  | none => d

/-- One pass of Python `str.replace` with a non-empty pattern `p`:
scan left to right, replacing each non-overlapping occurrence of `p`
by `r`.  The fuel argument bounds the recursion; `fuel = s.length`
always suffices because a step consumes at least one character. -/
def replaceGo (p r : List Char) : Nat → List Char → List Char
  | _, [] => []
  | 0, l => l
  | fuel + 1, c :: rest =>
    if p <+: (c :: rest) then
      r ++ replaceGo p r fuel ((c :: rest).drop p.length)
    else
      c :: replaceGo p r fuel rest

/-- Python `s.replace(p, r)` (for the non-empty literal patterns used in
`main.py`; an empty pattern is returned unchanged, a case the source
never exercises). -/
def pyReplace (s p r : PyStr) : PyStr :=
  if p = [] then s else replaceGo p r s.length s

/-- Python `s.split(p)` for a non-empty separator `p`: scan left to right,
cutting at each non-overlapping occurrence of `p`.  Always returns a
non-empty list of parts.  `fuel = s.length` suffices. -/
def splitGo (p : List Char) : Nat → List Char → List (List Char)
  | _, [] => [[]]
  | 0, l => [l]
  | fuel + 1, c :: rest =>
    if p <+: (c :: rest) then
      [] :: splitGo p fuel ((c :: rest).drop p.length)
    else
      match splitGo p fuel rest with
      | t :: ts => (c :: t) :: ts
      | [] => [[c]]

/-- Python `s.split(p)` (non-empty separator; `main.py` splits on `","`,
on `"/workItems/"` and on a backslash). -/
def pySplit (p s : PyStr) : List PyStr :=
  if p = [] then [s] else splitGo p s.length s

/-- Python `s.strip()`: remove leading and trailing whitespace. -/
def pyStrip (s : PyStr) : PyStr :=
  ((s.dropWhile Char.isWhitespace).reverse.dropWhile Char.isWhitespace).reverse

/-! ### Base64 (`base64.b64encode` / `base64.b64decode`) -/

/-- The base64 alphabet, in index order. -/
def b64Alphabet : List Char :=
  "ABCDEFGHIJKLMNOPQRSTUVWXYZabcdefghijklmnopqrstuvwxyz0123456789+/".data

/-- Character of a sextet value. -/
def b64char (n : Nat) : Char := b64Alphabet.getD n '?'

/-- Sextet value of an alphabet character (`none` for a non-alphabet one). -/
def b64index (c : Char) : Option Nat := b64Alphabet.findIdx? (· = c)

/-- `base64.b64encode` on a byte string, producing the padded character
encoding three bytes per four characters. -/
def b64encodeBytes : List Nat → List Char
  | [] => []
  | [a] => [b64char (a / 4), b64char (a % 4 * 16), '=', '=']
  | [a, b] => [b64char (a / 4), b64char (a % 4 * 16 + b / 16), b64char (b % 16 * 4), '=']
  | a :: b :: c :: rest =>
    b64char (a / 4) :: b64char (a % 4 * 16 + b / 16) ::
      b64char (b % 16 * 4 + c / 64) :: b64char (c % 64) :: b64encodeBytes rest

/-- Decode base64 characters four at a time, honouring `=` padding in the
final group.  Rejects input whose (valid-character) length is not a
multiple of four, as `base64.b64decode` does. -/
def b64decodeGroups : List Char → Option (List Nat)
  | [] => some []
  | c1 :: c2 :: c3 :: c4 :: rest =>
    match b64index c1, b64index c2 with
    | some n1, some n2 =>
      if c3 = '=' then
        if c4 = '=' ∧ rest = [] then some [n1 * 4 + n2 / 16] else none
      else
        match b64index c3 with
        | some n3 =>
          if c4 = '=' then
            if rest = [] then some [n1 * 4 + n2 / 16, n2 % 16 * 16 + n3 / 4] else none
          else
            match b64index c4 with
            | some n4 =>
              match b64decodeGroups rest with
              | some ds => some ((n1 * 4 + n2 / 16) :: (n2 % 16 * 16 + n3 / 4) ::
                  (n3 % 4 * 64 + n4) :: ds)
              | none => none
            | none => none
        | none => none
    | _, _ => none
  | _ => none

/-- `base64.b64decode` on a Python string argument: non-ASCII input raises
(modelled as `none`); characters outside the alphabet and padding are
discarded (`validate=False`, the default the source relies on), then the
remainder is decoded in groups of four. -/
def b64decode (s : PyStr) : Option (List Nat) :=
  if s.any (fun c => 128 ≤ c.toNat) then none
  else b64decodeGroups (s.filter (fun c => (b64index c).isSome || c == '='))

/-! ### UTF-8 (`str.encode("utf-8")` / `bytes.decode()`) -/

/-- UTF-8 encoding of one Unicode scalar value. -/
def utf8EncodeChar (n : Nat) : List Nat :=
  if n < 0x80 then [n]
  else if n < 0x800 then [0xC0 + n / 64, 0x80 + n % 64]
  else if n < 0x10000 then [0xE0 + n / 4096, 0x80 + n / 64 % 64, 0x80 + n % 64]
  else [0xF0 + n / 262144, 0x80 + n / 4096 % 64, 0x80 + n / 64 % 64, 0x80 + n % 64]

/-- Python `s.encode("utf-8")`. -/
def utf8Encode (s : PyStr) : List Nat :=
  (s.map (fun c => utf8EncodeChar c.toNat)).flatten

/-- Build a character from a decoded scalar value, failing on a surrogate
or out-of-range value, and prepend it to the rest of the decode. -/
def utf8Cons (n : Nat) (rest : Option (List Char)) : Option (List Char) :=
  if h : Nat.isValidChar n then
    match rest with
    | some cs => some (Char.ofNatAux n h :: cs)
    | none => none
  else none

/-- Whether a byte is a UTF-8 continuation byte. -/
def utf8Cont (b : Nat) : Prop := 0x80 ≤ b ∧ b < 0xC0

instance (b : Nat) : Decidable (utf8Cont b) := by unfold utf8Cont; infer_instance

/-- Strict UTF-8 decoding (as Python `bytes.decode()`): rejects stray or
missing continuation bytes, overlong forms, surrogates and values above
U+10FFFF.  The fuel argument bounds the recursion; `fuel = length`
suffices because each step consumes at least one byte. -/
def utf8DecodeGo : Nat → List Nat → Option (List Char)
  | _, [] => some []
  | 0, _ :: _ => none
  | fuel + 1, b :: rest =>
    if b < 0x80 then utf8Cons b (utf8DecodeGo fuel rest)
    else if b < 0xC2 then none
    else if b < 0xE0 then
      match rest with
      | b2 :: r =>
        if utf8Cont b2 then utf8Cons ((b - 0xC0) * 64 + (b2 - 0x80)) (utf8DecodeGo fuel r)
        else none
      | [] => none
    else if b < 0xF0 then
      match rest with
      | b2 :: b3 :: r =>
        if utf8Cont b2 ∧ utf8Cont b3 then
          let n := (b - 0xE0) * 4096 + (b2 - 0x80) * 64 + (b3 - 0x80)
          if 0x800 ≤ n then utf8Cons n (utf8DecodeGo fuel r) else none
        else none
      | _ => none
    else if b < 0xF5 then
      match rest with
      | b2 :: b3 :: b4 :: r =>
        if utf8Cont b2 ∧ utf8Cont b3 ∧ utf8Cont b4 then
          let n := (b - 0xF0) * 262144 + (b2 - 0x80) * 4096 + (b3 - 0x80) * 64 + (b4 - 0x80)
          if 0x10000 ≤ n ∧ n < 0x110000 then utf8Cons n (utf8DecodeGo fuel r) else none
        else none
      | _ => none
    else none

/-- Python `bs.decode()` (strict UTF-8). -/
def utf8Decode (bs : List Nat) : Option PyStr := utf8DecodeGo bs.length bs

/-! ### Config resolver (`get_azure_config_from_headers`, `main.py` 94-117) -/

/-- Effective per-request connection settings. -/
structure ConnectionSettings where
  organization : PyStr
  project : PyStr
  base_url : PyStr
  access_token : PyStr
deriving DecidableEq, Repr

/-- The static defaults loaded from `config.yaml` at startup (the file is
external to the source; its values are parameters of the model). -/
structure StaticDefaults where
  org : PyStr
  proj : PyStr
  baseUrl : PyStr
  token : PyStr
deriving DecidableEq, Repr

/-- Token extraction from the `Authorization` header (`main.py` 102-110):
if the header is present and starts with the `Basic ` scheme, base64-decode
the remainder and UTF-8 decode the bytes; if the result starts with a colon
the remainder of it is the token.  Every failure yields `none` (the bare
`except: pass`). -/
def extractHeaderToken (authorization : Option PyStr) : Option PyStr :=
  match authorization with
  | none => none
  | some a =>
    if "Basic ".data <+: a then
      match b64decode (a.drop 6) with
      | some bytes =>
        match utf8Decode bytes with
        | some decoded =>
          match decoded with
          | ':' :: t => some t
          | _ => none
        | none => none
      | none => none
    else none

/-- `get_azure_config_from_headers` (`main.py` 94-117): each of
organization, project and base URL uses the override header when present
and non-empty (Python `or`), and the access token uses the header-embedded
token when extraction succeeded and produced a non-empty string. -/
def getAzureConfigFromHeaders (xOrg xProj xBase auth : Option PyStr)
    (d : StaticDefaults) : ConnectionSettings :=
  { organization := pyOr xOrg d.org
    project := pyOr xProj d.proj
    base_url := pyOr xBase d.baseUrl
    access_token := pyOr (extractHeaderToken auth) d.token }

/-! ### WIQL query construction (`main.py` 144-155 and 371-377) -/

/-- The iteration filter string computed at `main.py` 144-147.  The source
computes it but never interpolates it into the query — it is dead. -/
def workItemsIterationFilter (iteration : PyStr) : PyStr :=
  if iteration = [] then []
  else "AND [System.IterationPath] = '".data ++ iteration ++ "'".data

/-- The SELECT/FROM part of the `/work-items` WIQL text (everything of the
f-string at `main.py` 150-154 that precedes `WHERE`). -/
def workItemsWiqlSelectFrom : PyStr :=
  ("\n        SELECT [System.Id], [System.Title], [System.State], "
    ++ "[System.AssignedTo], [System.IterationPath], [System.WorkItemType]"
    ++ "\n        FROM WorkItems \n        ").data

/-- Literal text the query places between `WHERE` and the interpolated
assignee. -/
def wiqlWherePre : PyStr := "WHERE [System.AssignedTo] = '".data

/-- Literal text the query places after the interpolated assignee. -/
def wiqlWherePost : PyStr := "'\n        ".data

/-- The WIQL query text `/work-items` posts upstream (`main.py` 149-155).
The `iteration` parameter is accepted because the endpoint receives it,
but the f-string interpolates only `assigned_to`. -/
def workItemsWiqlQuery (assigned_to : PyStr) (iteration : PyStr) : PyStr :=
  workItemsWiqlSelectFrom ++ wiqlWherePre ++ assigned_to ++ wiqlWherePost

/-- The SELECT/FROM part of the `/my-iterations` WIQL text
(`main.py` 372-376). -/
def myIterationsWiqlSelectFrom : PyStr :=
  "\n        SELECT [System.Id], [System.IterationPath]\n        FROM WorkItems \n        ".data

/-- The WIQL query text `/my-iterations` posts upstream (`main.py` 371-377). -/
def myIterationsWiqlQuery (assigned_to : PyStr) : PyStr :=
  myIterationsWiqlSelectFrom ++ wiqlWherePre ++ assigned_to ++ wiqlWherePost

/-! ### Upstream failure and endpoint error types -/

/-- Result of one upstream HTTP call: a non-2xx response raised by
`raise_for_status` (carrying status code and response text), or any other
exception (connection failure, malformed payload), carrying its message. -/
inductive UpstreamErr where
  | http (status : Nat) (text : PyStr)
  | other (msg : PyStr)
deriving DecidableEq, Repr

/-- A FastAPI `HTTPException`: status code plus detail string. -/
structure HTTPErr where
  status : Nat
  detail : PyStr
deriving DecidableEq, Repr

/-- The error mapping shared by `/work-items` and `/my-iterations`
(`main.py` 213-218 and 421-426): an upstream HTTP error is surfaced with
the same status, anything else as a 500. -/
def httpErrOf (e : UpstreamErr) : HTTPErr :=
  match e with
  | .http s t => ⟨s, "Azure DevOps API error: ".data ++ t⟩
  | .other m => ⟨500, "Internal server error: ".data ++ m⟩

/-! ### `/work-items` (`main.py` 129-218) -/

/-- The `fields` object of one item of the batch details response, with the
keys `/work-items` reads (each read with `.get`, hence optional; the
assignee is read as `fields.get("System.AssignedTo", {}).get("displayName")`,
so only the display name is modelled). -/
structure SummaryFields where
  title : Option PyStr
  state : Option PyStr
  assignedToDisplay : Option PyStr
  workItemType : Option PyStr
  iterationPath : Option PyStr
  createdDate : Option PyStr
deriving DecidableEq, Repr

/-- One raw item of the batch details response. -/
structure RawSummaryItem where
  id : Nat
  fields : SummaryFields
  url : PyStr
deriving DecidableEq, Repr

/-- One simplified item of the `/work-items` response (`main.py` 192-201). -/
structure ShapedSummary where
  id : Nat
  title : Option PyStr
  state : Option PyStr
  assigned_to : Option PyStr
  work_item_type : Option PyStr
  iteration : PyStr
  created_date : Option PyStr
  url : PyStr
deriving DecidableEq, Repr

/-- Shape one raw item (`main.py` 192-201); the iteration field is
`fields.get("System.IterationPath", "")`. -/
def shapeSummary (it : RawSummaryItem) : ShapedSummary :=
  { id := it.id
    title := it.fields.title
    state := it.fields.state
    assigned_to := it.fields.assignedToDisplay
    work_item_type := it.fields.workItemType
    iteration := it.fields.iterationPath.getD []
    created_date := it.fields.createdDate
    url := it.url }

/-- A successful `/work-items` response body (`main.py` 204-211). -/
structure WorkItemsOk where
  work_items : List ShapedSummary
  count : Nat
  filters_assigned_to : PyStr
  filters_iteration : PyStr
deriving DecidableEq, Repr

/-- Upstream environment of `/work-items`: the WIQL POST (taking the query
text, returning ids) and the batch details GET (taking the ids). -/
structure WorkItemsEnv where
  query : PyStr → Except UpstreamErr (List Nat)
  details : List Nat → Except UpstreamErr (List RawSummaryItem)

/-- The `/work-items` loop keeps an item unless an iteration was requested
and is not a substring of the item's iteration path (`main.py` 188-190). -/
def keepByIteration (iteration : PyStr) (it : RawSummaryItem) : Bool :=
  !(iteration ≠ [] ∧ ¬ iteration <:+: it.fields.iterationPath.getD [] : Bool)

/-- The `/work-items` endpoint (`main.py` 129-218): post the WIQL query,
early-return on an empty id list, batch-fetch details, filter by iteration
substring, shape, and attach the count and echoed filters. -/
def workItemsEndpoint (env : WorkItemsEnv) (assigned_to iteration : PyStr) :
    Except HTTPErr WorkItemsOk :=
  match env.query (workItemsWiqlQuery assigned_to iteration) with
  | .error e => .error (httpErrOf e)
  | .ok ids =>
    if ids = [] then .ok ⟨[], 0, assigned_to, iteration⟩
    else
      match env.details ids with
      | .error e => .error (httpErrOf e)
      | .ok items =>
        let simplified := (items.filter (keepByIteration iteration)).map shapeSummary
        .ok ⟨simplified, simplified.length, assigned_to, iteration⟩

/-! ### `/work-item-details` (`main.py` 221-353) -/

/-- The `fields` object of one fetched work item, with the keys the detail
endpoint reads.  Priority and story points are numeric pass-through values;
their exact numeric type is irrelevant to every claim, so they are carried
as integers. -/
structure DetailFields where
  title : Option PyStr
  description : Option PyStr
  acceptanceCriteria : Option PyStr
  state : Option PyStr
  workItemType : Option PyStr
  assignedToDisplay : Option PyStr
  createdByDisplay : Option PyStr
  createdDate : Option PyStr
  changedDate : Option PyStr
  iterationPath : Option PyStr
  areaPath : Option PyStr
  priority : Option Int
  storyPoints : Option Int
  tags : Option PyStr
deriving DecidableEq, Repr

/-- One entry of the work item's `relations` array (`rel` read with `.get`,
`url` read with `.get("url", "")`, the default folded in). -/
structure Relation where
  rel : Option PyStr
  url : PyStr
deriving DecidableEq, Repr

/-- A raw fetched work item (`$expand=all`). -/
structure RawWorkItem where
  id : Nat
  fields : DetailFields
  relations : List Relation
  url : PyStr
deriving DecidableEq, Repr

/-- One raw comment of the comments response (id and text are indexed
directly, the rest read with `.get`). -/
structure RawComment where
  id : Nat
  text : PyStr
  createdByDisplay : Option PyStr
  createdDate : Option PyStr
deriving DecidableEq, Repr

/-- One shaped comment (`main.py` 256-264). -/
structure ShapedComment where
  id : Nat
  text : PyStr
  created_by : Option PyStr
  created_date : Option PyStr
deriving DecidableEq, Repr

/-- Shape one comment. -/
def shapeComment (c : RawComment) : ShapedComment :=
  ⟨c.id, c.text, c.createdByDisplay, c.createdDate⟩

/-- The `fields` object of one child of the children batch response. -/
structure ChildFields where
  title : Option PyStr
  state : Option PyStr
  workItemType : Option PyStr
  assignedToDisplay : Option PyStr
  description : Option PyStr
deriving DecidableEq, Repr

/-- One raw child of the children batch response. -/
structure RawChild where
  id : Nat
  fields : ChildFields
deriving DecidableEq, Repr

/-- One entry of `child_work_items` (`main.py` 290-297). -/
structure ShapedChild where
  id : Nat
  title : Option PyStr
  state : Option PyStr
  work_item_type : Option PyStr
  assigned_to : Option PyStr
  description : Option PyStr
deriving DecidableEq, Repr

/-- The HTML cleanup applied to the top-level description and acceptance
criteria (`main.py` 302 and 306): four sequential `str.replace` calls. -/
def cleanMainText (s : PyStr) : PyStr :=
  pyReplace (pyReplace (pyReplace (pyReplace s "<div>".data "".data)
    "</div>".data "".data) "<br>".data "\n".data) "&nbsp;".data " ".data

/-- The HTML cleanup applied to a child description (`main.py` 296): only
three sequential `str.replace` calls — no `&nbsp;` substitution. -/
def cleanChildText (s : PyStr) : PyStr :=
  pyReplace (pyReplace (pyReplace s "<div>".data "".data)
    "</div>".data "".data) "<br>".data "\n".data

/-- Shape one child (`main.py` 290-297).  The description is
`child_fields.get("System.Description", "").replace(...)` guarded by
`if child_fields.get("System.Description") else None`, so an absent or
empty raw description yields `None`. -/
def shapeChild (c : RawChild) : ShapedChild :=
  { id := c.id
    title := c.fields.title
    state := c.fields.state
    work_item_type := c.fields.workItemType
    assigned_to := c.fields.assignedToDisplay
    description :=
      match c.fields.description with
      | some d => if d = [] then none else some (cleanChildText d)
      | none => none }

/-- The forward-hierarchy link type (`main.py` 272). -/
def hierarchyForward : PyStr := "System.LinkTypes.Hierarchy-Forward".data

/-- Child-id extraction (`main.py` 271-277): for each relation whose `rel`
equals the forward-hierarchy link type and whose URL contains
`/workItems/`, take the last piece of the URL split on `/workItems/`. -/
def extractChildIds (relations : List Relation) : List PyStr :=
  relations.filterMap fun r =>
    if r.rel = some hierarchyForward then
      if "/workItems/".data <:+: r.url then
        some ((pySplit "/workItems/".data r.url).getLastD [])
      else none
    else none

/-- A shaped detail record (`main.py` 308-328). -/
structure WorkItemDetail where
  id : Nat
  title : Option PyStr
  description : PyStr
  acceptance_criteria : PyStr
  state : Option PyStr
  work_item_type : Option PyStr
  assigned_to : Option PyStr
  created_by : Option PyStr
  created_date : Option PyStr
  changed_date : Option PyStr
  iteration : Option PyStr
  area : Option PyStr
  priority : Option Int
  story_points : Option Int
  tags : Option PyStr
  comments : List ShapedComment
  child_work_items : List ShapedChild
  child_count : Nat
  url : PyStr
deriving DecidableEq, Repr

/-- Build the detail record (`main.py` 299-328).  The description starts
from `fields.get("System.Description", "")` and is cleaned only when
non-empty (Python truthiness), and likewise the acceptance criteria. -/
def buildDetail (wi : RawWorkItem) (comments : List ShapedComment)
    (children : List ShapedChild) : WorkItemDetail :=
  let d0 := wi.fields.description.getD []
  let a0 := wi.fields.acceptanceCriteria.getD []
  { id := wi.id
    title := wi.fields.title
    description := if d0 = [] then d0 else cleanMainText d0
    acceptance_criteria := if a0 = [] then a0 else cleanMainText a0
    state := wi.fields.state
    work_item_type := wi.fields.workItemType
    assigned_to := wi.fields.assignedToDisplay
    created_by := wi.fields.createdByDisplay
    created_date := wi.fields.createdDate
    changed_date := wi.fields.changedDate
    iteration := wi.fields.iterationPath
    area := wi.fields.areaPath
    priority := wi.fields.priority
    story_points := wi.fields.storyPoints
    tags := wi.fields.tags
    comments := comments
    child_work_items := children
    child_count := children.length
    url := wi.url }

/-- Outcome of processing one requested id: a detail record, or the inline
error record `id`/`error` appended by the per-id handler
(`main.py` 332-336). -/
inductive DetailResult where
  | detail (d : WorkItemDetail)
  | err (id : PyStr) (msg : PyStr)
deriving DecidableEq, Repr

/-- Upstream environment of `/work-item-details`.  `fetchItem` is the
single-item GET with `$expand=all` (an `error` value is the stringified
exception, HTTP or transport).  `fetchComments` returns `ok none` for a
non-200 status (the code then uses an empty comment list) and `error` for
a raised exception.  `childrenStatusOk` is the outcome of the children
batch GET (`ok true` = status 200, `ok false` = other status, `error` = a
raised exception), and on a 200 the response `value` array holds the
record `childValue i` for each requested id `i` the upstream knows
(a batch GET by ids returns the records of those ids). -/
structure DetailEnv where
  fetchItem : PyStr → Except PyStr RawWorkItem
  fetchComments : PyStr → Except PyStr (Option (List RawComment))
  childrenStatusOk : List PyStr → Except PyStr Bool
  childValue : PyStr → Option RawChild

/-- The per-id error message (`main.py` 335). -/
def failedFetchMsg (e : PyStr) : PyStr := "Failed to fetch details: ".data ++ e

/-- Process one requested id (`main.py` 240-336): fetch the item, fetch its
comments, extract child ids from the forward-hierarchy relations, fetch the
children when there are any, and build the record; any raised exception is
captured as an inline error record for this id only. -/
def processOne (env : DetailEnv) (id : PyStr) : DetailResult :=
  match env.fetchItem id with
  | .error e => .err id (failedFetchMsg e)
  | .ok wi =>
    match env.fetchComments id with
    | .error e => .err id (failedFetchMsg e)
    | .ok copt =>
      let comments := (copt.getD []).map shapeComment
      let childIds := extractChildIds wi.relations
      if childIds = [] then .detail (buildDetail wi comments [])
      else
        match env.childrenStatusOk childIds with
        | .error e => .err id (failedFetchMsg e)
        | .ok false => .detail (buildDetail wi comments [])
        | .ok true =>
          .detail (buildDetail wi comments
            ((childIds.filterMap env.childValue).map shapeChild))

/-- The `/work-item-details` response (`main.py` 338-346): a bare record
for a single requested id, a wrapped list with a count otherwise.
`noneFound` models the `if all_work_items else` fallback, which is
unreachable because the loop appends one entry per id. -/
inductive DetailsResponse where
  | single (r : DetailResult)
  | multi (work_items : List DetailResult) (count : Nat)
  | noneFound
deriving DecidableEq, Repr

/-- The `/work-item-details` endpoint (`main.py` 221-353): split the
comma-separated id list, strip each piece, process the ids sequentially
and independently, and wrap the results.  The surrounding `try/except` of
the endpoint cannot fire: every step of the loop body is inside the
per-id handler, and nothing outside the loop raises. -/
def workItemDetailsEndpoint (env : DetailEnv) (work_item_id : PyStr) :
    DetailsResponse :=
  let ids := (pySplit ",".data work_item_id).map pyStrip
  let results := ids.map (processOne env)
  if ids.length = 1 then
    match results with
    | r :: _ => .single r
    | [] => .noneFound
  else .multi results results.length

/-! ### `/my-iterations` (`main.py` 356-426) -/

/-- One shaped iteration (`main.py` 410-416). -/
structure ShapedIteration where
  path : PyStr
  name : PyStr
  is_active : Bool
deriving DecidableEq, Repr

/-- Shape one iteration path (`main.py` 411-415): the name is the last
backslash-separated piece when the path contains a backslash, and the
active flag is a substring test for `Active`. -/
def shapeIteration (p : PyStr) : ShapedIteration :=
  { path := p
    name := if '\\' ∈ p then (pySplit ['\\'] p).getLastD [] else p
    is_active := "Active".data <:+: p }

/-- A successful `/my-iterations` response body (`main.py` 409-419). -/
structure IterationsOk where
  iterations : List ShapedIteration
  count : Nat
deriving DecidableEq, Repr

/-- Upstream environment of `/my-iterations`: the WIQL POST and the batch
details GET projected to the iteration path field. -/
structure IterationsEnv where
  query : PyStr → Except UpstreamErr (List Nat)
  detailsIterationPath : List Nat → Except UpstreamErr (List (Option PyStr))

/-- Lexicographic comparison of strings by code point, the order Python
`sorted` applies to the iteration paths. -/
def lexLe : PyStr → PyStr → Bool
  | [], _ => true
  | _ :: _, [] => false
  | a :: as_, b :: bs => if a < b then true else if b < a then false else lexLe as_ bs

/-- The `/my-iterations` endpoint (`main.py` 356-426): post the WIQL query,
early-return on an empty id list, fetch the iteration paths, keep the
truthy ones, deduplicate (the Python `set`), sort, and shape. -/
def myIterationsEndpoint (env : IterationsEnv) (assigned_to : PyStr) :
    Except HTTPErr IterationsOk :=
  match env.query (myIterationsWiqlQuery assigned_to) with
  | .error e => .error (httpErrOf e)
  | .ok ids =>
    if ids = [] then .ok ⟨[], 0⟩
    else
      match env.detailsIterationPath ids with
      | .error e => .error (httpErrOf e)
      | .ok paths =>
        let kept := paths.filterMap fun p? =>
          match p? with
          | some p => if p = [] then none else some p
          | none => none
        let sortedIterations := (kept.dedup).mergeSort lexLe
        .ok ⟨sortedIterations.map shapeIteration, sortedIterations.length⟩

/-! ### `/test-connection` (`main.py` 428-485) -/

/-- Outcome of the probe WIQL POST: a response with status and text, or a
raised transport-level exception with its message. -/
inductive ProbeOutcome where
  | response (status : Nat) (text : PyStr)
  | transportErr (msg : PyStr)
deriving DecidableEq, Repr

/-- Whether a status code is a 2xx success (httpx `raise_for_status`
raises for every other status). -/
def is2xx (s : Nat) : Bool := 200 ≤ s && s < 300

/-- The 401 detail text (`main.py` 474-477). -/
def patPermissionDetail : PyStr :=
  ("Invalid Personal Access Token (PAT) or insufficient permissions. Please check:\n"
    ++ "1. Your PAT is not expired\n"
    ++ "2. Your PAT has 'Project and Team (read)' permissions\n"
    ++ "3. You have access to the organization and project").data

/-- The 404 detail text (`main.py` 480). -/
def notFoundDetail : PyStr :=
  ("Project or organization not found. Please verify the organization name "
    ++ "and project name are correct.").data

/-- The `/test-connection` upstream-outcome mapping (`main.py` 458-485):
a 2xx probe response is success; a non-2xx response raised by
`raise_for_status` is remapped — 400 with `size limit` in the body is
success, 401 and 404 get explicit 400 details, anything else a generic
400; a transport exception becomes a 400 connection failure. -/
def testConnectionOutcome (o : ProbeOutcome) : Except HTTPErr (PyStr × PyStr) :=
  match o with
  | .transportErr m => .error ⟨400, "Connection failed: ".data ++ m⟩
  | .response s t =>
    if is2xx s then .ok ("success".data, "Connection successful".data)
    else if s = 400 ∧ "size limit".data <:+: t then
      .ok ("success".data, "Connection successful (large dataset detected)".data)
    else if s = 401 then .error ⟨400, patPermissionDetail⟩
    else if s = 404 then .error ⟨400, notFoundDetail⟩
    else .error ⟨400, "Azure DevOps API error: ".data ++ t⟩

/-! ### Derived views and concrete fixtures used by the theorems below -/

/-- The stripped id list `/work-item-details` derives from its query
parameter (`main.py` 235). -/
def idsOf (work_item_id : PyStr) : List PyStr :=
  (pySplit ",".data work_item_id).map pyStrip

/-- The per-id results the `/work-item-details` loop accumulates
(`main.py` 240-336). -/
def resultsOf (env : DetailEnv) (work_item_id : PyStr) : List DetailResult :=
  (idsOf work_item_id).map (processOne env)

/-- The child descriptions of a bare detail response (empty for every
other response shape); a view used to state concrete facts about
responses. -/
def childDescriptionsOf : DetailsResponse → List (Option PyStr)
  | .single (.detail d) => d.child_work_items.map (fun c => c.description)
  | _ => []

/-- Concrete static defaults. -/
def cDefaults : StaticDefaults :=
  ⟨"org".data, "proj".data, "https://dev".data, "default-token".data⟩

/-- A concrete fetched work item: an HTML-bearing description and
acceptance criteria, one forward-hierarchy relation and one relation of
another type. -/
def cRawItem : RawWorkItem :=
  { id := 1
    fields :=
      { title := some "T".data
        description := some "a&nbsp;<div>b</div>".data
        acceptanceCriteria := some "<br>done&nbsp;now".data
        state := some "Active".data
        workItemType := none
        assignedToDisplay := none
        createdByDisplay := none
        createdDate := none
        changedDate := none
        iterationPath := some "P\\S1".data
        areaPath := none
        priority := none
        storyPoints := none
        tags := none }
    relations :=
      [ ⟨some hierarchyForward, "https://dev/proj/_apis/wit/workItems/7".data⟩,
        ⟨some "System.LinkTypes.Related".data, "https://dev/proj/_apis/wit/workItems/8".data⟩ ]
    url := "https://dev/wi/1".data }

/-- A concrete child record whose description contains `&nbsp;`. -/
def cChildRaw : RawChild :=
  ⟨7, { title := some "C".data
        state := none
        workItemType := none
        assignedToDisplay := none
        description := some "x&nbsp;y".data }⟩

/-- A concrete upstream environment for `/work-item-details`: id `1`
resolves to `cRawItem`, every other id fails with a raised exception. -/
def cDetailEnv : DetailEnv :=
  { fetchItem := fun i => if i = "1".data then .ok cRawItem else .error "boom".data
    fetchComments := fun _ => .ok (some [⟨11, "hello".data, none, none⟩])
    childrenStatusOk := fun _ => .ok true
    childValue := fun i => if i = "7".data then some cChildRaw else none }

/-- A concrete summary item inside the requested iteration. -/
def cSummaryItemA : RawSummaryItem :=
  ⟨1, { title := some "A".data
        state := none
        assignedToDisplay := none
        workItemType := none
        iterationPath := some "Proj\\Active Sprint".data
        createdDate := none }, "u1".data⟩

/-- A concrete summary item outside the requested iteration. -/
def cSummaryItemB : RawSummaryItem :=
  ⟨2, { title := some "B".data
        state := none
        assignedToDisplay := none
        workItemType := none
        iterationPath := some "Proj\\Other".data
        createdDate := none }, "u2".data⟩

/-- A concrete upstream environment for `/work-items`. -/
def cWorkItemsEnv : WorkItemsEnv :=
  ⟨fun _ => .ok [1, 2], fun _ => .ok [cSummaryItemA, cSummaryItemB]⟩

/-- A concrete upstream environment for `/my-iterations` (duplicate,
absent and empty iteration paths included). -/
def cIterationsEnv : IterationsEnv :=
  ⟨fun _ => .ok [1, 2],
   fun _ => .ok [some "B\\It".data, some "A".data, some "B\\It".data, none, some []]⟩

/-! ### Helper lemmas -/

/-- A singleton pattern occurs in a string exactly when the character is an
element of it. -/
theorem single_char_occurs_iff_mem (a : Char) (s : List Char) : [a] <:+: s ↔ a ∈ s := by
  constructor
  · rintro ⟨pre, post, rfl⟩
    simp
  · intro h
    obtain ⟨pre, post, rfl⟩ := List.append_of_mem h
    exact ⟨pre, post, by simp⟩


/-- Specification of `splitGo` under sufficient fuel: the part list is
never empty; with no occurrence of the separator it is `[s]`; with an
occurrence there are at least two parts and the last part is exactly the
text after the final consumed occurrence — it carries no further
occurrence of the separator. -/
theorem splitGo_spec (p : List Char) (hp : p ≠ []) :
    ∀ fuel s, s.length ≤ fuel →
      splitGo p fuel s ≠ []
      ∧ (¬ p <:+: s → splitGo p fuel s = [s])
      ∧ (p <:+: s →
          2 ≤ (splitGo p fuel s).length
          ∧ ∃ pre, s = pre ++ p ++ (splitGo p fuel s).getLastD []
            ∧ ¬ p <:+: (splitGo p fuel s).getLastD []) := by
  intro fuel
  induction fuel with
  | zero =>
    intro s hs
    have hnil : s = [] := List.eq_nil_of_length_eq_zero (Nat.le_zero.mp hs)
    subst hnil
    exact ⟨by simp [splitGo], fun _ => rfl,
      fun hinf => absurd ( List.infix_nil.mp hinf) hp⟩
  | succ fuel ih =>
    intro s hs
    cases s with
    | nil =>
      exact ⟨by simp [splitGo], fun _ => rfl,
        fun hinf => absurd ( List.infix_nil.mp hinf) hp⟩
    | cons c rest =>
      have hplen : 1 ≤ p.length := by
        cases p with
        | nil => exact absurd rfl hp
        | cons x xs => simp
      by_cases hpre : p <+: (c :: rest)
      · simp only [splitGo, if_pos hpre]
        have hlen' : ((c :: rest).drop p.length).length ≤ fuel := by
          simp only [List.length_drop, List.length_cons]
          simp only [List.length_cons] at hs
          omega
        obtain ⟨hne', hno', hyes'⟩ := ih ((c :: rest).drop p.length) hlen'
        obtain ⟨t, ts, hts⟩ : ∃ t ts, splitGo p fuel ((c :: rest).drop p.length) = t :: ts := by
          cases h : splitGo p fuel ((c :: rest).drop p.length) with
          | nil => exact absurd h hne'
          | cons t ts => exact ⟨t, ts, rfl⟩
        have hdecomp : c :: rest = p ++ (c :: rest).drop p.length := by
          obtain ⟨u, hu⟩ := hpre
          rw [← hu, List.drop_left]
        have hinf : p <:+: (c :: rest) := hpre.isInfix
        rw [hts] at hno' hyes'
        rw [hts]
        have hgl : ([] :: t :: ts).getLastD ([] : List Char) = (t :: ts).getLastD [] :=
          List.getLastD_cons _ _ _
        refine ⟨by simp, fun hno => absurd hinf hno, fun _ => ?_⟩
        rw [hgl]
        by_cases hinf' : p <:+: (c :: rest).drop p.length
        · obtain ⟨h2, pre', hpre', hlast'⟩ := hyes' hinf'
          refine ⟨by simp, p ++ pre', ?_, hlast'⟩
          calc c :: rest = p ++ (c :: rest).drop p.length := hdecomp
            _ = p ++ (pre' ++ p ++ (t :: ts).getLastD []) := by rw [← hpre']
            _ = p ++ pre' ++ p ++ (t :: ts).getLastD [] := by simp [List.append_assoc]
        · have heq : t :: ts = [(c :: rest).drop p.length] := hno' hinf'
          injection heq with h1 h2
          subst h1
          subst h2
          refine ⟨by simp, [], ?_, ?_⟩
          · simpa using hdecomp
          · simpa using hinf'
      · simp only [splitGo, if_neg hpre]
        have hlenr : rest.length ≤ fuel := by
          simp only [List.length_cons] at hs
          omega
        obtain ⟨hne', hno', hyes'⟩ := ih rest hlenr
        obtain ⟨t, ts, hts⟩ : ∃ t ts, splitGo p fuel rest = t :: ts := by
          cases h : splitGo p fuel rest with
          | nil => exact absurd h hne'
          | cons t ts => exact ⟨t, ts, rfl⟩
        rw [hts] at hno' hyes'
        rw [hts]
        have hinfiff : p <:+: (c :: rest) ↔ p <:+: rest := by
          rw [ List.infix_cons_iff]
          simp [hpre]
        refine ⟨by simp, ?_, ?_⟩
        · intro hno
          have hr : t :: ts = [rest] := hno' (fun h => hno (hinfiff.mpr h))
          injection hr with h1 h2
          rw [h1, h2]
        · intro hinf
          obtain ⟨h2, pre', hpre', hlast'⟩ := hyes' (hinfiff.mp hinf)
          have hts_ne : ts ≠ [] := by
            intro h
            rw [h] at h2
            simp at h2
          obtain ⟨u, us, rfl⟩ : ∃ u us, ts = u :: us := by
            cases ts with
            | nil => exact absurd rfl hts_ne
            | cons u us => exact ⟨u, us, rfl⟩
          have hlast_eq : ((c :: t) :: u :: us).getLastD ([] : List Char)
              = (t :: u :: us).getLastD [] := by
            rw [List.getLastD_cons, List.getLastD_cons, List.getLastD_cons, List.getLastD_cons]
          refine ⟨by simp, c :: pre', ?_, ?_⟩
          · rw [hlast_eq, hpre']
            simp
          · rw [hlast_eq]
            exact hlast'

/-- Splitting on a single character not present in the string yields the
whole string as the only part. -/
theorem pySplit_singleton_of_not_mem (a : Char) (s : PyStr) (h : a ∉ s) :
    pySplit [a] s = [s] := by
  unfold pySplit
  rw [if_neg (by simp)]
  exact (splitGo_spec [a] (by simp) s.length s le_rfl).2.1
    (fun hinf => h ((single_char_occurs_iff_mem a s).mp hinf))

/-- The last part of a Python split, when the separator occurs, is the
text after the final consumed occurrence of the separator and contains no
occurrence itself. -/
theorem pySplit_last_spec (p s : PyStr) (hp : p ≠ []) (h : p <:+: s) :
    ∃ pre, s = pre ++ p ++ (pySplit p s).getLastD []
      ∧ ¬ p <:+: (pySplit p s).getLastD [] := by
  unfold pySplit
  rw [if_neg hp]
  exact ((splitGo_spec p hp s.length s le_rfl).2.2 h).2

/-! ### C3 — the WIQL queries contain no iteration condition -/

set_option maxRecDepth 16000 in
/-- C3: for every value of the `iteration` parameter, the WIQL query text
`/work-items` posts upstream is the same string — a fixed template around
the interpolated assignee whose single `WHERE` clause constrains only
`[System.AssignedTo]` (the template text around the assignee mentions
`[System.IterationPath]` nowhere and contains no further `WHERE`), and
likewise for the `/my-iterations` query. -/
theorem c3_wiql_no_iteration_condition :
    ∀ (assigned_to iteration : PyStr),
      workItemsWiqlQuery assigned_to iteration = workItemsWiqlQuery assigned_to []
      ∧ workItemsWiqlQuery assigned_to iteration
          = workItemsWiqlSelectFrom ++ wiqlWherePre ++ assigned_to ++ wiqlWherePost
      ∧ myIterationsWiqlQuery assigned_to
          = myIterationsWiqlSelectFrom ++ wiqlWherePre ++ assigned_to ++ wiqlWherePost
      ∧ ¬ "WHERE".data <:+: workItemsWiqlSelectFrom
      ∧ ¬ "WHERE".data <:+: myIterationsWiqlSelectFrom
      ∧ ¬ "[System.IterationPath]".data <:+: (wiqlWherePre ++ wiqlWherePost)
      ∧ "WHERE [System.AssignedTo] = '".data <+: wiqlWherePre := by
  intro a it
  exact ⟨rfl, rfl, rfl, by decide, by decide, by decide, by decide⟩

/-! ### C10 — every count field equals the length of its list -/

/-- C10: in every successful response, `count` equals the length of the
accompanying list — for `/work-items`, for the wrapped multi-id
`/work-item-details` response, for `/my-iterations` — and every detail
record's `child_count` equals the length of its `child_work_items`. -/
theorem c10_counts_match_lengths :
    (∀ env a it r, workItemsEndpoint env a it = .ok r → r.count = r.work_items.length)
    ∧ (∀ env wid items n, workItemDetailsEndpoint env wid = .multi items n →
        n = items.length)
    ∧ (∀ env a r, myIterationsEndpoint env a = .ok r → r.count = r.iterations.length)
    ∧ (∀ env id d, processOne env id = .detail d →
        d.child_count = d.child_work_items.length) := by
  refine ⟨?_, ?_, ?_, ?_⟩
  · intro env a it r h
    unfold workItemsEndpoint at h
    split at h
    · exact absurd h (by simp)
    · split at h
      · injection h with h'
        subst h'
        rfl
      · split at h
        · exact absurd h (by simp)
        · injection h with h'
          subst h'
          rfl
  · intro env wid items n h
    unfold workItemDetailsEndpoint at h
    simp only [] at h
    split at h
    · split at h <;> exact absurd h (by simp)
    · injection h with h1 h2
      subst h1
      subst h2
      simp
  · intro env a r h
    unfold myIterationsEndpoint at h
    split at h
    · exact absurd h (by simp)
    · split at h
      · injection h with h'
        subst h'
        rfl
      · split at h
        · exact absurd h (by simp)
        · injection h with h'
          subst h'
          simp
  · intro env id d h
    unfold processOne at h
    simp only [] at h
    split at h
    · exact absurd h (by simp)
    · split at h
      · exact absurd h (by simp)
      · split at h
        · injection h with h'
          subst h'
          rfl
        · split at h
          · exact absurd h (by simp)
          · injection h with h'
            subst h'
            rfl
          · injection h with h'
            subst h'
            rfl

/-- Witness for C10 at concrete environments: the conclusion evaluated on
a concrete `/work-items` run, a concrete two-id `/work-item-details` run,
a concrete empty `/my-iterations` run and a concrete detail record. -/
theorem c10_counts_match_lengths_witness :
    (WorkItemsOk.count ⟨[shapeSummary cSummaryItemA, shapeSummary cSummaryItemB], 2,
        "u".data, []⟩
      = [shapeSummary cSummaryItemA, shapeSummary cSummaryItemB].length)
    ∧ ((resultsOf cDetailEnv "1,9".data).length = (resultsOf cDetailEnv "1,9".data).length)
    ∧ (IterationsOk.count ⟨[], 0⟩ = ([] : List ShapedIteration).length)
    ∧ ((buildDetail cRawItem [shapeComment ⟨11, "hello".data, none, none⟩]
          [shapeChild cChildRaw]).child_count
        = (buildDetail cRawItem [shapeComment ⟨11, "hello".data, none, none⟩]
          [shapeChild cChildRaw]).child_work_items.length) := by
  refine ⟨?_, ?_, ?_, ?_⟩
  · exact c10_counts_match_lengths.1 cWorkItemsEnv "u".data []
      ⟨[shapeSummary cSummaryItemA, shapeSummary cSummaryItemB], 2, "u".data, []⟩ rfl
  · exact c10_counts_match_lengths.2.1 cDetailEnv "1,9".data
      (resultsOf cDetailEnv "1,9".data) (resultsOf cDetailEnv "1,9".data).length rfl
  · exact c10_counts_match_lengths.2.2.1 ⟨fun _ => .ok [], fun _ => .ok []⟩ "u".data ⟨[], 0⟩ rfl
  · exact c10_counts_match_lengths.2.2.2 cDetailEnv "1".data
      (buildDetail cRawItem [shapeComment ⟨11, "hello".data, none, none⟩]
        [shapeChild cChildRaw]) rfl

/-! ### C7 — `/work-items` iteration filtering -/

/-- C7: with a non-empty `iteration` parameter, every item of the
`/work-items` response has the requested iteration as a substring of its
iteration path; with an empty `iteration`, every fetched item is included
unfiltered. -/
theorem c7_iteration_substring_filter :
    (∀ env a it r e, workItemsEndpoint env a it = .ok r → e ∈ r.work_items →
        it ≠ [] → it <:+: e.iteration)
    ∧ (∀ env a ids items, env.query (workItemsWiqlQuery a []) = .ok ids → ids ≠ [] →
        env.details ids = .ok items →
        workItemsEndpoint env a [] =
          .ok ⟨items.map shapeSummary, (items.map shapeSummary).length, a, []⟩) := by
  constructor
  · intro env a it r e h he hit
    unfold workItemsEndpoint at h
    split at h
    · exact absurd h (by simp)
    · split at h
      · injection h with h'
        subst h'
        simp at he
      · split at h
        · exact absurd h (by simp)
        · injection h with h'
          subst h'
          obtain ⟨item, hmem, rfl⟩ := List.mem_map.mp he
          have hkeep : it = [] ∨ it <:+: item.fields.iterationPath.getD [] := by
            simpa [keepByIteration] using List.of_mem_filter hmem
          cases hkeep with
          | inl h0 => exact absurd h0 hit
          | inr hi => exact hi
  · intro env a ids items hq hne hd
    unfold workItemsEndpoint
    rw [hq]
    simp only []
    rw [if_neg hne, hd]
    simp only []
    rw [List.filter_eq_self.mpr (fun x _ => by simp [keepByIteration])]

/-- Witness for C7 at a concrete environment: the kept item's iteration
path contains the requested iteration, and with an empty iteration both
fetched items are returned. -/
theorem c7_iteration_substring_filter_witness :
    "Active".data <:+: (shapeSummary cSummaryItemA).iteration
    ∧ workItemsEndpoint cWorkItemsEnv "u".data [] =
        .ok ⟨[cSummaryItemA, cSummaryItemB].map shapeSummary,
          ([cSummaryItemA, cSummaryItemB].map shapeSummary).length, "u".data, []⟩ := by
  constructor
  · exact c7_iteration_substring_filter.1 cWorkItemsEnv "u".data "Active".data
      ⟨[shapeSummary cSummaryItemA], 1, "u".data, "Active".data⟩
      (shapeSummary cSummaryItemA) rfl (by simp) (by decide)
  · exact c7_iteration_substring_filter.2 cWorkItemsEnv "u".data [1, 2]
      [cSummaryItemA, cSummaryItemB] rfl (by simp) rfl

/-! ### C4 and C5 — `/work-item-details` batch behaviour -/

/-- With at least two requested ids, `/work-item-details` returns the
wrapped list of per-id results with its count. -/
theorem detailsEndpoint_multi (env : DetailEnv) (wid : PyStr)
    (h2 : 2 ≤ (idsOf wid).length) :
    workItemDetailsEndpoint env wid = .multi (resultsOf env wid) ((idsOf wid).length) := by
  unfold workItemDetailsEndpoint
  simp only []
  have hne1 : ¬ ((pySplit ",".data wid).map pyStrip).length = 1 := by
    unfold idsOf at h2
    omega
  rw [if_neg hne1]
  unfold resultsOf idsOf
  simp [List.length_map]

/-- C4: during a multi-id `/work-item-details` request, a failure fetching
one id yields the inline error record at that position, every other
position is the result of processing its own id (independent of the
failure), and the wrapped batch response is still returned. -/
theorem c4_per_id_failure_isolation (env : DetailEnv) (wid : PyStr) (k : Nat) (e : PyStr)
    (hk : k < (idsOf wid).length)
    (hfail : env.fetchItem ((idsOf wid).getD k []) = .error e) :
    (resultsOf env wid).getD k (.err [] [])
        = .err ((idsOf wid).getD k []) (failedFetchMsg e)
    ∧ (∀ j, j < (idsOf wid).length →
        (resultsOf env wid).getD j (.err [] []) = processOne env ((idsOf wid).getD j []))
    ∧ (2 ≤ (idsOf wid).length →
        workItemDetailsEndpoint env wid = .multi (resultsOf env wid) ((idsOf wid).length)) := by
  have hmap : ∀ j, j < (idsOf wid).length →
      (resultsOf env wid).getD j (.err [] []) = processOne env ((idsOf wid).getD j []) := by
    intro j hj
    unfold resultsOf
    rw [List.getD_eq_getElem _ _ (by simpa using hj), List.getElem_map,
      ← List.getD_eq_getElem _ _ hj]
  refine ⟨?_, hmap, fun h2 => detailsEndpoint_multi env wid h2⟩
  rw [hmap k hk]
  unfold processOne
  rw [hfail]

/-- Witness for C4: in a concrete two-id request where the second id fails
upstream, the second entry is the inline error record and the wrapped
response is still produced. -/
theorem c4_per_id_failure_isolation_witness :
    (resultsOf cDetailEnv "1,9".data).getD 1 (.err [] [])
        = .err "9".data (failedFetchMsg "boom".data)
    ∧ workItemDetailsEndpoint cDetailEnv "1,9".data
        = .multi (resultsOf cDetailEnv "1,9".data) 2 := by
  obtain ⟨h1, _, h3⟩ := c4_per_id_failure_isolation cDetailEnv "1,9".data 1 "boom".data
    (by decide) rfl
  exact ⟨h1, h3 (by decide)⟩

/-- C5: a single comma-free `work_item_id` yields the bare per-id result
(the detail record or the inline error record); a comma-separated list of
two or more ids yields the wrapped list with one entry per requested id. -/
theorem c5_single_vs_multi_shape :
    (∀ env wid, (',' : Char) ∉ wid →
        workItemDetailsEndpoint env wid = .single (processOne env (pyStrip wid)))
    ∧ (∀ env wid, 2 ≤ (idsOf wid).length →
        workItemDetailsEndpoint env wid = .multi (resultsOf env wid) ((idsOf wid).length)
        ∧ (resultsOf env wid).length = (idsOf wid).length) := by
  constructor
  · intro env wid h
    unfold workItemDetailsEndpoint
    rw [show ",".data = [','] from rfl, pySplit_singleton_of_not_mem ',' wid h]
    rfl
  · intro env wid h2
    exact ⟨detailsEndpoint_multi env wid h2, by unfold resultsOf; simp [List.length_map]⟩

/-- Witness for C5: a concrete single-id request returns the bare record
and a concrete two-id request returns the wrapped pair. -/
theorem c5_single_vs_multi_shape_witness :
    workItemDetailsEndpoint cDetailEnv "1".data
        = .single (processOne cDetailEnv "1".data)
    ∧ workItemDetailsEndpoint cDetailEnv "1,9".data
        = .multi (resultsOf cDetailEnv "1,9".data) 2
    ∧ (resultsOf cDetailEnv "1,9".data).length = 2 := by
  have h1 := c5_single_vs_multi_shape.1 cDetailEnv "1".data (by decide)
  have h2 := c5_single_vs_multi_shape.2 cDetailEnv "1,9".data (by decide)
  exact ⟨by simpa using h1, h2.1, h2.2⟩

/-! ### C6 — `/test-connection` upstream error mapping -/

set_option maxRecDepth 32000 in
/-- C6: a 400 probe response whose body contains `size limit` is
reinterpreted as success; 401 raises a 400 error whose detail carries the
three PAT-permission hints; 404 raises a 400 not-found error; every other
non-2xx response raises the generic 400 error. -/
theorem c6_test_connection_error_mapping :
    (∀ t, "size limit".data <:+: t →
        testConnectionOutcome (.response 400 t)
          = .ok ("success".data, "Connection successful (large dataset detected)".data))
    ∧ (∀ t, ¬ "size limit".data <:+: t →
        testConnectionOutcome (.response 400 t)
          = .error ⟨400, "Azure DevOps API error: ".data ++ t⟩)
    ∧ (∀ t, testConnectionOutcome (.response 401 t) = .error ⟨400, patPermissionDetail⟩)
    ∧ (∀ t, testConnectionOutcome (.response 404 t) = .error ⟨400, notFoundDetail⟩)
    ∧ ("1. Your PAT is not expired".data <:+: patPermissionDetail
        ∧ "2. Your PAT has 'Project and Team (read)' permissions".data <:+: patPermissionDetail
        ∧ "3. You have access to the organization and project".data <:+: patPermissionDetail)
    ∧ (∀ s t, ¬ (200 ≤ s ∧ s < 300) → s ≠ 400 → s ≠ 401 → s ≠ 404 →
        testConnectionOutcome (.response s t)
          = .error ⟨400, "Azure DevOps API error: ".data ++ t⟩) := by
  refine ⟨?_, ?_, ?_, ?_, ⟨by decide, by decide, by decide⟩, ?_⟩
  · intro t h
    simp [testConnectionOutcome, is2xx, h]
  · intro t h
    simp [testConnectionOutcome, is2xx, h]
  · intro t
    simp [testConnectionOutcome, is2xx]
  · intro t
    simp [testConnectionOutcome, is2xx]
  · intro s t h2 h400 h401 h404
    have h2xx : is2xx s = false := by
      unfold is2xx
      simp only [Bool.and_eq_false_iff, decide_eq_false_iff_not]
      omega
    simp [testConnectionOutcome, h2xx, h400, h401, h404]

set_option maxRecDepth 8000 in
/-- Witness for C6 at concrete probe responses. -/
theorem c6_test_connection_error_mapping_witness :
    testConnectionOutcome (.response 400 "VS402337: query size limit exceeded".data)
        = .ok ("success".data, "Connection successful (large dataset detected)".data)
    ∧ testConnectionOutcome (.response 400 "bad request".data)
        = .error ⟨400, "Azure DevOps API error: ".data ++ "bad request".data⟩
    ∧ testConnectionOutcome (.response 503 "oops".data)
        = .error ⟨400, "Azure DevOps API error: ".data ++ "oops".data⟩ := by
  refine ⟨?_, ?_, ?_⟩
  · exact c6_test_connection_error_mapping.1 "VS402337: query size limit exceeded".data
      (by decide)
  · exact c6_test_connection_error_mapping.2.1 "bad request".data (by decide)
  · exact c6_test_connection_error_mapping.2.2.2.2.2 503 "oops".data
      (by decide) (by decide) (by decide) (by decide)

/-! ### C8 — children come only from forward-hierarchy relations -/

/-- C8: assuming the upstream batch fetch returns, for each requested id,
the record stored under that id (so a returned record's integer id renders
as the requested id string), every entry of `child_work_items` originates
from a relation whose `rel` is the forward-hierarchy link type — no other
relation contributes — and the requested id of each entry is precisely the
segment of that relation's URL after the last `/workItems/` occurrence
(the text after the final occurrence, itself free of `/workItems/`). -/
theorem c8_child_relations_forward_only (env : DetailEnv) (id : PyStr)
    (wi : RawWorkItem) (d : WorkItemDetail)
    (hwi : env.fetchItem id = .ok wi)
    (hd : processOne env id = .detail d)
    (hstore : ∀ i rc, env.childValue i = some rc → i = (toString rc.id).data) :
    ∀ ch ∈ d.child_work_items, ∃ r ∈ wi.relations,
      r.rel = some hierarchyForward
      ∧ ∃ pre, r.url = pre ++ "/workItems/".data ++ (toString ch.id).data
        ∧ ¬ "/workItems/".data <:+: (toString ch.id).data := by
  intro ch hch
  unfold processOne at hd
  simp only [] at hd
  split at hd
  · exact absurd hd (by simp)
  · rename_i wi' heq
    rw [hwi] at heq
    injection heq with hwieq
    subst hwieq
    split at hd
    · exact absurd hd (by simp)
    · split at hd
      · injection hd with h'
        subst h'
        simp [buildDetail] at hch
      · split at hd
        · exact absurd hd (by simp)
        · injection hd with h'
          subst h'
          simp [buildDetail] at hch
        · injection hd with h'
          subst h'
          simp only [buildDetail] at hch
          obtain ⟨rc, hrcmem, rfl⟩ := List.mem_map.mp hch
          obtain ⟨i, himem, hival⟩ := List.mem_filterMap.mp hrcmem
          unfold extractChildIds at himem
          obtain ⟨r, hrmem, hreq⟩ := List.mem_filterMap.mp himem
          by_cases h1 : r.rel = some hierarchyForward
          case neg =>
            rw [if_neg h1] at hreq
            exact absurd hreq (by simp)
          rw [if_pos h1] at hreq
          by_cases h2 : "/workItems/".data <:+: r.url
          case neg =>
            rw [if_neg h2] at hreq
            exact absurd hreq (by simp)
          rw [if_pos h2] at hreq
          injection hreq with hid
          obtain ⟨pre, hurl, hnolast⟩ :=
            pySplit_last_spec "/workItems/".data r.url (by decide) h2
          have hi_eq : i = (toString (shapeChild rc).id).data := by
            simpa [shapeChild] using hstore i rc hival
          refine ⟨r, hrmem, h1, pre, ?_, ?_⟩
          · rw [hurl, hid, hi_eq]
          · rw [← hi_eq, ← hid]
            exact hnolast

set_option maxRecDepth 8000 in
/-- Witness for C8 at the concrete environment: the single child entry of
the concrete detail record comes from the forward-hierarchy relation of
`cRawItem` and its id `7` is the URL segment after `/workItems/`. -/
theorem c8_child_relations_forward_only_witness :
    ∃ r ∈ cRawItem.relations,
      r.rel = some hierarchyForward
      ∧ ∃ pre, r.url = pre ++ "/workItems/".data
            ++ (toString (shapeChild cChildRaw).id).data
        ∧ ¬ "/workItems/".data <:+: (toString (shapeChild cChildRaw).id).data := by
  refine c8_child_relations_forward_only cDetailEnv "1".data cRawItem
    (buildDetail cRawItem [shapeComment ⟨11, "hello".data, none, none⟩]
      [shapeChild cChildRaw]) rfl rfl ?_ (shapeChild cChildRaw) ?_
  · intro i rc h
    by_cases hi : i = "7".data
    · subst hi
      simp only [cDetailEnv, if_pos rfl] at h
      injection h with h'
      subst h'
      decide
    · simp only [cDetailEnv, if_neg hi] at h
      exact absurd h (by simp)
  · decide

/-! ### C2 — HTML cleanup of textual fields -/

set_option maxRecDepth 8000 in
/-- Counterexample to C2 as stated: in a concrete `/work-item-details`
response the child entry's description still carries the literal
`&nbsp;` — the claimed substitution of `&nbsp;` by a space (which would
produce `x y`) is not applied to child descriptions. -/
theorem c2_child_nbsp_counterexample :
    childDescriptionsOf (workItemDetailsEndpoint cDetailEnv "1".data)
        = [some "x&nbsp;y".data]
    ∧ "&nbsp;".data <:+: "x&nbsp;y".data
    ∧ pyReplace "x&nbsp;y".data "&nbsp;".data " ".data = "x y".data
    ∧ ("x&nbsp;y".data : PyStr) ≠ "x y".data := by
  exact ⟨by decide, by decide, by decide, by decide⟩

/-- C2 (amended): every record of a `/work-item-details` response is a
per-id result; in each detail record the top-level description and
acceptance criteria are cleaned with all four substitutions
(`cleanMainText`: drop `<div>` and `</div>`, `<br>` to a newline,
`&nbsp;` to a space; an empty or absent raw value passes through), while
each child entry's description is cleaned with only the first three
substitutions (`cleanChildText`) — the `&nbsp;` substitution is not
applied to child descriptions. -/
theorem c2_html_cleanup_fields :
    (∀ env wid, workItemDetailsEndpoint env wid
          = .multi (resultsOf env wid) ((resultsOf env wid).length)
        ∨ workItemDetailsEndpoint env wid
          = .single ((resultsOf env wid).getD 0 (.err [] [])))
    ∧ (∀ env id d, processOne env id = .detail d →
        ∃ wi, env.fetchItem id = .ok wi
          ∧ d.description = (if wi.fields.description.getD [] = [] then []
              else cleanMainText (wi.fields.description.getD []))
          ∧ d.acceptance_criteria = (if wi.fields.acceptanceCriteria.getD [] = [] then []
              else cleanMainText (wi.fields.acceptanceCriteria.getD []))
          ∧ ∀ ch ∈ d.child_work_items, ∃ rc : RawChild, ch = shapeChild rc
              ∧ ch.description = (match rc.fields.description with
                  | some dd => if dd = [] then none else some (cleanChildText dd)
                  | none => none)) := by
  constructor
  · intro env wid
    unfold workItemDetailsEndpoint
    simp only []
    by_cases hlen : ((pySplit ",".data wid).map pyStrip).length = 1
    · rw [if_pos hlen]
      obtain ⟨i, hi⟩ := List.length_eq_one.mp hlen
      right
      rw [hi]
      unfold resultsOf idsOf
      rw [hi]
      rfl
    · rw [if_neg hlen]
      left
      unfold resultsOf idsOf
      rfl
  · intro env id d h
    unfold processOne at h
    simp only [] at h
    split at h
    · exact absurd h (by simp)
    · rename_i wi heq
      refine ⟨wi, heq, ?_⟩
      split at h
      · exact absurd h (by simp)
      · have hdesc : ∀ comments children, (buildDetail wi comments children).description
              = (if wi.fields.description.getD [] = [] then []
                else cleanMainText (wi.fields.description.getD []))
            ∧ (buildDetail wi comments children).acceptance_criteria
              = (if wi.fields.acceptanceCriteria.getD [] = [] then []
                else cleanMainText (wi.fields.acceptanceCriteria.getD [])) := by
          intro comments children
          constructor
          · simp only [buildDetail]
            split <;> simp_all
          · simp only [buildDetail]
            split <;> simp_all
        split at h
        · injection h with h'
          subst h'
          exact ⟨(hdesc _ _).1, (hdesc _ _).2, by simp [buildDetail]⟩
        · split at h
          · exact absurd h (by simp)
          · injection h with h'
            subst h'
            exact ⟨(hdesc _ _).1, (hdesc _ _).2, by simp [buildDetail]⟩
          · injection h with h'
            subst h'
            refine ⟨(hdesc _ _).1, (hdesc _ _).2, ?_⟩
            intro ch hch
            simp only [buildDetail] at hch
            obtain ⟨rc, _, rfl⟩ := List.mem_map.mp hch
            exact ⟨rc, rfl, rfl⟩

set_option maxRecDepth 8000 in
/-- Witness for C2 at the concrete environment: the concrete single-id
response shape, and the concrete detail record's cleaned fields. -/
theorem c2_html_cleanup_fields_witness :
    (workItemDetailsEndpoint cDetailEnv "1".data
          = .multi (resultsOf cDetailEnv "1".data) ((resultsOf cDetailEnv "1".data).length)
        ∨ workItemDetailsEndpoint cDetailEnv "1".data
          = .single ((resultsOf cDetailEnv "1".data).getD 0 (.err [] [])))
    ∧ (buildDetail cRawItem [shapeComment ⟨11, "hello".data, none, none⟩]
          [shapeChild cChildRaw]).description
        = cleanMainText "a&nbsp;<div>b</div>".data := by
  constructor
  · exact c2_html_cleanup_fields.1 cDetailEnv "1".data
  · obtain ⟨wi, hwi, hdescr, -, -⟩ := c2_html_cleanup_fields.2 cDetailEnv "1".data
      (buildDetail cRawItem [shapeComment ⟨11, "hello".data, none, none⟩]
        [shapeChild cChildRaw]) rfl
    have hwi' : wi = cRawItem := by
      have h2 : (Except.ok wi : Except PyStr RawWorkItem) = Except.ok cRawItem := by
        rw [← hwi]
        rfl
      injection h2
    subst hwi'
    simpa using hdescr

/-! ### Base64 and UTF-8 round trips -/

set_option maxRecDepth 4000 in
/-- Every sextet value looks itself up in the alphabet. -/
theorem b64index_b64char : ∀ n, n < 64 → b64index (b64char n) = some n := by decide

set_option maxRecDepth 4000 in
/-- Alphabet characters are ASCII. -/
theorem b64char_toNat_lt : ∀ n, n < 64 → (b64char n).toNat < 128 := by decide

set_option maxRecDepth 4000 in
/-- Alphabet characters are not the padding character. -/
theorem b64char_ne_pad : ∀ n, n < 64 → b64char n ≠ '=' := by decide

/-- The encoder output is ASCII and passes the decoder's character filter
unchanged. -/
theorem b64encode_chars : ∀ bs : List Nat, (∀ x ∈ bs, x < 256) →
    (b64encodeBytes bs).any (fun c => 128 ≤ c.toNat) = false
    ∧ (b64encodeBytes bs).filter (fun c => (b64index c).isSome || c == '=')
        = b64encodeBytes bs
  | [], _ => ⟨rfl, rfl⟩
  | [a], h => by
    have ha : a < 256 := h a (by simp)
    have e1 := b64index_b64char (a / 4) (by omega)
    have e2 := b64index_b64char (a % 4 * 16) (by omega)
    have l1 := b64char_toNat_lt (a / 4) (by omega)
    have l2 := b64char_toNat_lt (a % 4 * 16) (by omega)
    constructor
    · simp only [b64encodeBytes, List.any_cons, List.any_nil, Bool.or_false,
        Bool.or_eq_false_iff, decide_eq_false_iff_not]
      refine ⟨by omega, by omega, by decide, by decide⟩
    · simp [b64encodeBytes, List.filter_cons, e1, e2]
  | [a, b], h => by
    have ha : a < 256 := h a (by simp)
    have hb : b < 256 := h b (by simp)
    have e1 := b64index_b64char (a / 4) (by omega)
    have e2 := b64index_b64char (a % 4 * 16 + b / 16) (by omega)
    have e3 := b64index_b64char (b % 16 * 4) (by omega)
    have l1 := b64char_toNat_lt (a / 4) (by omega)
    have l2 := b64char_toNat_lt (a % 4 * 16 + b / 16) (by omega)
    have l3 := b64char_toNat_lt (b % 16 * 4) (by omega)
    constructor
    · simp only [b64encodeBytes, List.any_cons, List.any_nil, Bool.or_false,
        Bool.or_eq_false_iff, decide_eq_false_iff_not]
      refine ⟨by omega, by omega, by omega, by decide⟩
    · simp [b64encodeBytes, List.filter_cons, e1, e2, e3]
  | a :: b :: c :: rest, h => by
    have ha : a < 256 := h a (by simp)
    have hb : b < 256 := h b (by simp)
    have hc : c < 256 := h c (by simp)
    have IH := b64encode_chars rest (fun x hx => h x (by simp [hx]))
    have e1 := b64index_b64char (a / 4) (by omega)
    have e2 := b64index_b64char (a % 4 * 16 + b / 16) (by omega)
    have e3 := b64index_b64char (b % 16 * 4 + c / 64) (by omega)
    have e4 := b64index_b64char (c % 64) (by omega)
    have l1 := b64char_toNat_lt (a / 4) (by omega)
    have l2 := b64char_toNat_lt (a % 4 * 16 + b / 16) (by omega)
    have l3 := b64char_toNat_lt (b % 16 * 4 + c / 64) (by omega)
    have l4 := b64char_toNat_lt (c % 64) (by omega)
    constructor
    · simp only [b64encodeBytes, List.any_cons, Bool.or_eq_false_iff,
        decide_eq_false_iff_not]
      refine ⟨by omega, by omega, by omega, by omega, by simpa using IH.1⟩
    · simp [b64encodeBytes, List.filter_cons, e1, e2, e3, e4, IH.2]

/-- Group decoding inverts the encoder on byte strings. -/
theorem b64decodeGroups_encode : ∀ bs : List Nat, (∀ x ∈ bs, x < 256) →
    b64decodeGroups (b64encodeBytes bs) = some bs
  | [], _ => rfl
  | [a], h => by
    have ha : a < 256 := h a (by simp)
    have e1 := b64index_b64char (a / 4) (by omega)
    have e2 := b64index_b64char (a % 4 * 16) (by omega)
    simp only [b64encodeBytes, b64decodeGroups, e1, e2]
    simp only [if_pos rfl, and_self, if_true]
    congr 1
    simp only [List.cons.injEq, and_true]
    omega
  | [a, b], h => by
    have ha : a < 256 := h a (by simp)
    have hb : b < 256 := h b (by simp)
    have e1 := b64index_b64char (a / 4) (by omega)
    have e2 := b64index_b64char (a % 4 * 16 + b / 16) (by omega)
    have e3 := b64index_b64char (b % 16 * 4) (by omega)
    have ne3 := b64char_ne_pad (b % 16 * 4) (by omega)
    simp only [b64encodeBytes, b64decodeGroups, e1, e2, e3]
    rw [if_neg ne3]
    simp only [if_true]
    congr 1
    simp only [List.cons.injEq, and_true]
    constructor
    · omega
    · omega
  | a :: b :: c :: rest, h => by
    have ha : a < 256 := h a (by simp)
    have hb : b < 256 := h b (by simp)
    have hc : c < 256 := h c (by simp)
    have IH := b64decodeGroups_encode rest (fun x hx => h x (by simp [hx]))
    have e1 := b64index_b64char (a / 4) (by omega)
    have e2 := b64index_b64char (a % 4 * 16 + b / 16) (by omega)
    have e3 := b64index_b64char (b % 16 * 4 + c / 64) (by omega)
    have e4 := b64index_b64char (c % 64) (by omega)
    have ne3 := b64char_ne_pad (b % 16 * 4 + c / 64) (by omega)
    have ne4 := b64char_ne_pad (c % 64) (by omega)
    simp only [b64encodeBytes, b64decodeGroups, e1, e2, e3, e4]
    rw [if_neg ne3, if_neg ne4, IH]
    simp only [Option.some.injEq, List.cons.injEq, eq_self_iff_true, and_true]
    refine ⟨by omega, by omega, by omega⟩

/-- `base64.b64decode` inverts `base64.b64encode` on byte strings. -/
theorem b64decode_encode (bs : List Nat) (h : ∀ x ∈ bs, x < 256) :
    b64decode (b64encodeBytes bs) = some bs := by
  unfold b64decode
  rw [(b64encode_chars bs h).1]
  simp only [Bool.false_eq_true, if_false]
  rw [(b64encode_chars bs h).2, b64decodeGroups_encode bs h]

/-- The bytes of one encoded scalar are below 256. -/
theorem utf8EncodeChar_lt256 (n : Nat) (h : n < 0x110000) :
    ∀ x ∈ utf8EncodeChar n, x < 256 := by
  intro x hx
  unfold utf8EncodeChar at hx
  split_ifs at hx with h1 h2 h3
  · simp at hx
    omega
  · simp at hx
    rcases hx with rfl | rfl <;> omega
  · simp at hx
    rcases hx with rfl | rfl | rfl <;> omega
  · simp at hx
    rcases hx with rfl | rfl | rfl | rfl <;> omega

/-- The bytes of an encoded string are below 256. -/
theorem utf8Encode_lt256 (s : PyStr) : ∀ x ∈ utf8Encode s, x < 256 := by
  intro x hx
  unfold utf8Encode at hx
  rw [List.mem_flatten] at hx
  obtain ⟨l, hl, hxl⟩ := hx
  obtain ⟨c, _, rfl⟩ := List.mem_map.mp hl
  have hv : Nat.isValidChar c.toNat := c.valid
  have hlt : c.toNat < 0x110000 := by
    rcases hv with h | ⟨h1, h2⟩ <;> omega
  exact utf8EncodeChar_lt256 c.toNat hlt x hxl

/-- Rebuilding a character from its own scalar value gives it back. -/
theorem charOfNatAux_toNat (c : Char) (h : Nat.isValidChar c.toNat) :
    Char.ofNatAux c.toNat h = c := by
  have h2 := Char.ofNat_toNat c
  unfold Char.ofNat at h2
  rw [dif_pos h] at h2
  exact h2

/-- The fueled UTF-8 decoder inverts the encoder under sufficient fuel. -/
theorem utf8DecodeGo_encode : ∀ (cs : List Char) (fuel : Nat),
    (utf8Encode cs).length ≤ fuel → utf8DecodeGo fuel (utf8Encode cs) = some cs := by
  intro cs
  induction cs with
  | nil =>
    intro fuel _
    have he : utf8Encode [] = [] := rfl
    rw [he]
    cases fuel <;> rfl
  | cons c cs ih =>
    intro fuel hfuel
    have henc : utf8Encode (c :: cs) = utf8EncodeChar c.toNat ++ utf8Encode cs := by
      simp [utf8Encode]
    rw [henc] at hfuel ⊢
    have hv : Nat.isValidChar c.toNat := c.valid
    have hlt : c.toNat < 0x110000 := by
      rcases hv with h | ⟨h1, h2⟩ <;> omega
    obtain ⟨f, rfl⟩ : ∃ f, fuel = f + 1 := by
      cases fuel with
      | zero =>
        exfalso
        have h1 : 1 ≤ (utf8EncodeChar c.toNat).length := by
          unfold utf8EncodeChar
          split_ifs <;> simp
        simp only [List.length_append] at hfuel
        omega
      | succ f => exact ⟨f, rfl⟩
    by_cases h1 : c.toNat < 0x80
    · have he : utf8EncodeChar c.toNat = [c.toNat] := by
        unfold utf8EncodeChar
        rw [if_pos h1]
      rw [he] at hfuel ⊢
      have hrest : utf8DecodeGo f (utf8Encode cs) = some cs := by
        apply ih
        simp only [List.length_append, List.length_cons] at hfuel
        omega
      show (if c.toNat < 0x80 then utf8Cons c.toNat (utf8DecodeGo f (utf8Encode cs))
          else if c.toNat < 0xC2 then none
          else if c.toNat < 0xE0 then _ else if c.toNat < 0xF0 then _
          else if c.toNat < 0xF5 then _ else none) = some (c :: cs)
      rw [if_pos h1, hrest]
      unfold utf8Cons
      rw [dif_pos hv]
      rw [charOfNatAux_toNat]
    · by_cases h2 : c.toNat < 0x800
      · have he : utf8EncodeChar c.toNat
            = [0xC0 + c.toNat / 64, 0x80 + c.toNat % 64] := by
          unfold utf8EncodeChar
          rw [if_neg h1, if_pos h2]
        rw [he] at hfuel ⊢
        have hrest : utf8DecodeGo f (utf8Encode cs) = some cs := by
          apply ih
          simp only [List.length_append, List.length_cons] at hfuel
          omega
        simp only [List.cons_append, List.nil_append]
        simp only [utf8DecodeGo]
        rw [if_neg (by omega : ¬ 0xC0 + c.toNat / 64 < 0x80),
          if_neg (by omega : ¬ 0xC0 + c.toNat / 64 < 0xC2),
          if_pos (by omega : 0xC0 + c.toNat / 64 < 0xE0)]
        show (if utf8Cont (0x80 + c.toNat % 64) then
            utf8Cons ((0xC0 + c.toNat / 64 - 0xC0) * 64 + (0x80 + c.toNat % 64 - 0x80))
              (utf8DecodeGo f (utf8Encode cs))
          else none) = some (c :: cs)
        rw [if_pos (by unfold utf8Cont; omega)]
        rw [(by omega : (0xC0 + c.toNat / 64 - 0xC0) * 64 + (0x80 + c.toNat % 64 - 0x80)
            = c.toNat)]
        rw [hrest]
        unfold utf8Cons
        rw [dif_pos hv]
        rw [charOfNatAux_toNat]
      · by_cases h3 : c.toNat < 0x10000
        · have he : utf8EncodeChar c.toNat
              = [0xE0 + c.toNat / 4096, 0x80 + c.toNat / 64 % 64, 0x80 + c.toNat % 64] := by
            unfold utf8EncodeChar
            rw [if_neg h1, if_neg h2, if_pos h3]
          rw [he] at hfuel ⊢
          have hrest : utf8DecodeGo f (utf8Encode cs) = some cs := by
            apply ih
            simp only [List.length_append, List.length_cons] at hfuel
            omega
          simp only [List.cons_append, List.nil_append]
          simp only [utf8DecodeGo]
          rw [if_neg (by omega : ¬ 0xE0 + c.toNat / 4096 < 0x80),
            if_neg (by omega : ¬ 0xE0 + c.toNat / 4096 < 0xC2),
            if_neg (by omega : ¬ 0xE0 + c.toNat / 4096 < 0xE0),
            if_pos (by omega : 0xE0 + c.toNat / 4096 < 0xF0)]
          show (if utf8Cont (0x80 + c.toNat / 64 % 64) ∧ utf8Cont (0x80 + c.toNat % 64) then
              let n := (0xE0 + c.toNat / 4096 - 0xE0) * 4096
                + (0x80 + c.toNat / 64 % 64 - 0x80) * 64 + (0x80 + c.toNat % 64 - 0x80)
              if 0x800 ≤ n then utf8Cons n (utf8DecodeGo f (utf8Encode cs)) else none
            else none) = some (c :: cs)
          rw [if_pos (by unfold utf8Cont; omega)]
          simp only []
          rw [(by omega : (0xE0 + c.toNat / 4096 - 0xE0) * 4096
              + (0x80 + c.toNat / 64 % 64 - 0x80) * 64 + (0x80 + c.toNat % 64 - 0x80)
              = c.toNat)]
          rw [if_pos (by omega : 0x800 ≤ c.toNat)]
          rw [hrest]
          unfold utf8Cons
          rw [dif_pos hv]
          rw [charOfNatAux_toNat]
        · have he : utf8EncodeChar c.toNat
              = [0xF0 + c.toNat / 262144, 0x80 + c.toNat / 4096 % 64,
                 0x80 + c.toNat / 64 % 64, 0x80 + c.toNat % 64] := by
            unfold utf8EncodeChar
            rw [if_neg h1, if_neg h2, if_neg h3]
          rw [he] at hfuel ⊢
          have hrest : utf8DecodeGo f (utf8Encode cs) = some cs := by
            apply ih
            simp only [List.length_append, List.length_cons] at hfuel
            omega
          simp only [List.cons_append, List.nil_append]
          simp only [utf8DecodeGo]
          rw [if_neg (by omega : ¬ 0xF0 + c.toNat / 262144 < 0x80),
            if_neg (by omega : ¬ 0xF0 + c.toNat / 262144 < 0xC2),
            if_neg (by omega : ¬ 0xF0 + c.toNat / 262144 < 0xE0),
            if_neg (by omega : ¬ 0xF0 + c.toNat / 262144 < 0xF0),
            if_pos (by omega : 0xF0 + c.toNat / 262144 < 0xF5)]
          show (if utf8Cont (0x80 + c.toNat / 4096 % 64) ∧ utf8Cont (0x80 + c.toNat / 64 % 64)
                ∧ utf8Cont (0x80 + c.toNat % 64) then
              let n := (0xF0 + c.toNat / 262144 - 0xF0) * 262144
                + (0x80 + c.toNat / 4096 % 64 - 0x80) * 4096
                + (0x80 + c.toNat / 64 % 64 - 0x80) * 64 + (0x80 + c.toNat % 64 - 0x80)
              if 0x10000 ≤ n ∧ n < 0x110000 then utf8Cons n (utf8DecodeGo f (utf8Encode cs))
              else none
            else none) = some (c :: cs)
          rw [if_pos (by unfold utf8Cont; omega)]
          simp only []
          rw [(by omega : (0xF0 + c.toNat / 262144 - 0xF0) * 262144
              + (0x80 + c.toNat / 4096 % 64 - 0x80) * 4096
              + (0x80 + c.toNat / 64 % 64 - 0x80) * 64 + (0x80 + c.toNat % 64 - 0x80)
              = c.toNat)]
          rw [if_pos (by omega : 0x10000 ≤ c.toNat ∧ c.toNat < 0x110000)]
          rw [hrest]
          unfold utf8Cons
          rw [dif_pos hv]
          rw [charOfNatAux_toNat]

/-- Python UTF-8 decoding inverts encoding on every string. -/
theorem utf8Decode_encode (s : PyStr) : utf8Decode (utf8Encode s) = some s :=
  utf8DecodeGo_encode s (utf8Encode s).length le_rfl

/-! ### C1 and C9 — Authorization-header token resolution -/

/-- Token extraction succeeds on a well-formed Basic header built from any
token string. -/
theorem extractHeaderToken_wellformed (T : PyStr) :
    extractHeaderToken (some ("Basic ".data ++ b64encodeBytes (utf8Encode (':' :: T))))
      = some T := by
  unfold extractHeaderToken
  simp only []
  rw [if_pos ( List.prefix_append _ _)]
  rw [show ("Basic ".data ++ b64encodeBytes (utf8Encode (':' :: T))).drop 6
      = b64encodeBytes (utf8Encode (':' :: T)) from by
    rw [show 6 = ("Basic ".data).length from rfl, List.drop_left]]
  rw [b64decode_encode _ (utf8Encode_lt256 _)]
  simp only []
  rw [utf8Decode_encode]
  rfl

set_option maxRecDepth 4000 in
/-- Counterexample to C1 as stated: for the empty token the header
`Basic base64(utf8(":"))` does not resolve to the empty token — the static
default token is substituted instead (Python `or` treats the extracted
empty string as falsy, `main.py` 116). -/
theorem c1_empty_token_counterexample :
    (getAzureConfigFromHeaders none none none
        (some ("Basic ".data ++ b64encodeBytes (utf8Encode (':' :: ([] : PyStr)))))
        cDefaults).access_token = "default-token".data
    ∧ "default-token".data ≠ ([] : PyStr) := by
  exact ⟨by decide, by decide⟩

/-- C1 (amended): for every non-empty token string `T`, a request whose
Authorization header is `Basic base64(":"+T)` has its effective access
token resolved to exactly `T`; for the empty token the static default is
substituted. -/
theorem c1_basic_auth_token_extraction (T : PyStr) (hT : T ≠ [])
    (xo xp xb : Option PyStr) (d : StaticDefaults) :
    (getAzureConfigFromHeaders xo xp xb
        (some ("Basic ".data ++ b64encodeBytes (utf8Encode (':' :: T)))) d).access_token
      = T := by
  unfold getAzureConfigFromHeaders
  simp only []
  rw [extractHeaderToken_wellformed]
  unfold pyOr
  simp [hT]

set_option maxRecDepth 4000 in
/-- Witness for C1 at a concrete token. -/
theorem c1_basic_auth_token_extraction_witness :
    (getAzureConfigFromHeaders none none none
        (some ("Basic ".data ++ b64encodeBytes (utf8Encode (':' :: "tok".data))))
        cDefaults).access_token = "tok".data
    ∧ ("tok".data : PyStr) ≠ [] := by
  exact ⟨c1_basic_auth_token_extraction "tok".data (by decide) none none none cDefaults,
    by decide⟩

/-- C9: a missing Authorization header, a non-Basic scheme, a failing
base64 decode, a failing UTF-8 decode, or a decoded payload that does not
start with a colon each make config resolution fall back to the static
default token; resolution is a total function — no such request is
rejected. -/
theorem c9_malformed_auth_fallback :
    (∀ xo xp xb d, (getAzureConfigFromHeaders xo xp xb none d).access_token = d.token)
    ∧ (∀ xo xp xb d a, ¬ "Basic ".data <+: a →
        (getAzureConfigFromHeaders xo xp xb (some a) d).access_token = d.token)
    ∧ (∀ xo xp xb d a, "Basic ".data <+: a → b64decode (a.drop 6) = none →
        (getAzureConfigFromHeaders xo xp xb (some a) d).access_token = d.token)
    ∧ (∀ xo xp xb d a bs, "Basic ".data <+: a → b64decode (a.drop 6) = some bs →
        utf8Decode bs = none →
        (getAzureConfigFromHeaders xo xp xb (some a) d).access_token = d.token)
    ∧ (∀ xo xp xb d a bs dec, "Basic ".data <+: a → b64decode (a.drop 6) = some bs →
        utf8Decode bs = some dec → dec.head? ≠ some ':' →
        (getAzureConfigFromHeaders xo xp xb (some a) d).access_token = d.token) := by
  refine ⟨?_, ?_, ?_, ?_, ?_⟩
  · intro xo xp xb d
    rfl
  · intro xo xp xb d a h
    unfold getAzureConfigFromHeaders extractHeaderToken
    simp only []
    rw [if_neg h]
    rfl
  · intro xo xp xb d a h hb
    unfold getAzureConfigFromHeaders extractHeaderToken
    simp only []
    rw [if_pos h, hb]
    rfl
  · intro xo xp xb d a bs h hb hu
    unfold getAzureConfigFromHeaders extractHeaderToken
    simp only []
    rw [if_pos h, hb]
    simp only []
    rw [hu]
    rfl
  · intro xo xp xb d a bs dec h hb hu hh
    unfold getAzureConfigFromHeaders extractHeaderToken
    simp only []
    rw [if_pos h, hb]
    simp only []
    rw [hu]
    simp only []
    split
    · exact absurd rfl hh
    · rfl

set_option maxRecDepth 4000 in
/-- Witness for C9 at concrete malformed headers: absent header, a Bearer
header, a header whose base64 payload is invalid, one whose decoded bytes
are invalid UTF-8, and one whose decoded payload lacks the leading colon —
each resolves to the default token. -/
theorem c9_malformed_auth_fallback_witness :
    (getAzureConfigFromHeaders none none none none cDefaults).access_token
        = cDefaults.token
    ∧ (getAzureConfigFromHeaders none none none (some "Bearer xyz".data)
        cDefaults).access_token = cDefaults.token
    ∧ (getAzureConfigFromHeaders none none none (some "Basic A".data)
        cDefaults).access_token = cDefaults.token
    ∧ (getAzureConfigFromHeaders none none none (some "Basic /w==".data)
        cDefaults).access_token = cDefaults.token
    ∧ (getAzureConfigFromHeaders none none none (some "Basic YWI=".data)
        cDefaults).access_token = cDefaults.token := by
  refine ⟨c9_malformed_auth_fallback.1 none none none cDefaults, ?_, ?_, ?_, ?_⟩
  · exact c9_malformed_auth_fallback.2.1 none none none cDefaults "Bearer xyz".data
      (by decide)
  · exact c9_malformed_auth_fallback.2.2.1 none none none cDefaults "Basic A".data
      (by decide) (by decide)
  · exact c9_malformed_auth_fallback.2.2.2.1 none none none cDefaults "Basic /w==".data
      [255] (by decide) (by decide) (by decide)
  · exact c9_malformed_auth_fallback.2.2.2.2 none none none cDefaults "Basic YWI=".data
      [97, 98] "ab".data (by decide) (by decide) (by decide) (by decide)
